import Mathlib

set_option maxRecDepth 8000

/-!
Shallow embedding of the Enterprise RAG system's retrieval-and-fusion core:
`src/search/hybrid_search.py` (HybridSearchOrchestrator) and
`src/pipeline/query_processor.py` (QueryProcessor), together with the
behaviour of the collaborators they call (`KnowledgeGraph`, `VectorDatabase`,
the OpenAI generation service), which are modeled as oracles supplied by the
caller.  Python floats are modeled as rationals, Python strings as Lean
strings (ASCII behaviour of `str.lower`, `str.isupper`, `\s`, `\w`), and
Python exceptions as `Except String`.
-/

namespace RAG

/-- ASCII model of Python's whitespace class, as used by `str.strip()`,
`str.split()` and the regex class `\s`. -/
def pyIsSpace (c : Char) : Bool :=
  c = ' ' || c = '\t' || c = '\n' || c = '\r' || c = '\x0b' || c = '\x0c'

/-- Python `str.strip()`: drop whitespace at both ends. -/
def pyStrip (l : List Char) : List Char :=
  ((l.dropWhile pyIsSpace).reverse.dropWhile pyIsSpace).reverse

/-- `re.sub(r'\s+', ' ', s)`: replace every maximal whitespace run by a
single space.  `prev` records whether the previous character was
whitespace (so the run has already emitted its single space). -/
def collapseWs : Bool → List Char → List Char
  | _, [] => []
  | prev, c :: cs =>
    if pyIsSpace c then
      if prev then collapseWs true cs else ' ' :: collapseWs true cs
    else c :: collapseWs false cs

/-- The whitespace normalization done by `QueryRequest.validate_query`:
`re.sub(r'\s+', ' ', v.strip())`. -/
def normalizeWs (s : String) : String :=
  String.mk (collapseWs false (pyStrip s.toList))

/-- Worker for `str.split()`: split on whitespace runs, dropping empty
pieces; `acc` is the current word, reversed. -/
def pySplitGo : List Char → List Char → List (List Char)
  | acc, [] => if acc.isEmpty then [] else [acc.reverse]
  | acc, c :: cs =>
    if pyIsSpace c then
      if acc.isEmpty then pySplitGo [] cs else acc.reverse :: pySplitGo [] cs
    else pySplitGo (c :: acc) cs

/-- Python `str.split()` with no argument. -/
def pySplit (s : String) : List String :=
  (pySplitGo [] s.toList).map String.mk

/-- Python `str.lower()` (ASCII model), over code points. -/
def pyLower (s : String) : String :=
  String.mk (s.toList.map Char.toLower)

/-- Python slicing `s[:n]`, over code points. -/
def pyTake (s : String) (n : Nat) : String :=
  String.mk (s.toList.take n)

/-- ASCII model of the regex class `\w`. -/
def isWordChar (c : Char) : Bool :=
  c.isAlphanum || c = '_'

/-- Worker for `re.findall(r'\b\w+\b', s)`: maximal runs of word
characters; `acc` is the current run, reversed. -/
def wordRunsGo : List Char → List Char → List (List Char)
  | acc, [] => if acc.isEmpty then [] else [acc.reverse]
  | acc, c :: cs =>
    if isWordChar c then wordRunsGo (c :: acc) cs
    else if acc.isEmpty then wordRunsGo [] cs
    else acc.reverse :: wordRunsGo [] cs

/-- Python `re.findall(r'\b\w+\b', s)`. -/
def wordRuns (s : String) : List String :=
  (wordRunsGo [] s.toList).map String.mk

/-- Scanner for `re.findall(r'"([^"]+)"', s)`.  `none` = outside a quoted
region; `some acc` = inside one, with the accumulated content reversed.
A closing quote with empty content is itself re-tried as an opening quote,
matching the regex engine's advance-by-one retry. -/
def findQuoted : Option (List Char) → List Char → List (List Char)
  | _, [] => []
  | none, c :: cs =>
    if c = '"' then findQuoted (some []) cs else findQuoted none cs
  | some acc, c :: cs =>
    if c = '"' then
      if acc.isEmpty then findQuoted (some []) cs
      else acc.reverse :: findQuoted none cs
    else findQuoted (some (c :: acc)) cs

/-- Python `re.findall(r'"([^"]+)"', s)`. -/
def reFindQuoted (s : String) : List String :=
  (findQuoted none s.toList).map String.mk

/-- Keep the first occurrence of each element (the model of `list(set(xs))`;
the iteration order of a Python `set` is implementation defined, so claims
about this value are stated on its set of elements). -/
def dedupFirstGo : List String → List String → List String
  | [], _ => []
  | x :: xs, seen =>
    if x ∈ seen then dedupFirstGo xs seen else x :: dedupFirstGo xs (x :: seen)

/-- Keep the first occurrence of each element. -/
def dedupFirst (l : List String) : List String :=
  dedupFirstGo l []

/-- `QueryType` from `src/evaluation/eval_framework.py`. -/
inductive QueryType where
  | FACTUAL_LOOKUP
  | SUMMARIZATION
  | SEMANTIC_LINKAGE
  | REASONING
  | EXPLORATORY
deriving DecidableEq

/-- Python `QueryType[label]` (lookup by member name), returning `none`
where Python raises `KeyError`. -/
def queryTypeOfName (s : String) : Option QueryType :=
  if s = "FACTUAL_LOOKUP" then some .FACTUAL_LOOKUP
  else if s = "SUMMARIZATION" then some .SUMMARIZATION
  else if s = "SEMANTIC_LINKAGE" then some .SEMANTIC_LINKAGE
  else if s = "REASONING" then some .REASONING
  else if s = "EXPLORATORY" then some .EXPLORATORY
  else none

/-- Values stored in the open `metadata` maps. -/
inductive MetaVal where
  | str (s : String)
  | num (q : ℚ)
  | strList (l : List String)
deriving DecidableEq

/-- An open key-value map (`Dict[str, Any]`). -/
abbrev Metadata := List (String × MetaVal)

/-- `{**m, k: v}`: replace `k`'s binding if present, else append. -/
def dictInsert (m : Metadata) (k : String) (v : MetaVal) : Metadata :=
  (m.filter (fun p => p.1 ≠ k)) ++ [(k, v)]

/-- `SearchResult` from `src/search/hybrid_search.py`. -/
structure SearchResult where
  content : String
  source : String
  score : ℚ
  metadata : Metadata
deriving DecidableEq

/-- `_extract_entities`: double-quoted substrings plus capitalized tokens
of length > 1 that are not in the interrogative list, then `list(set(_))`. -/
def extract_entities (query : String) : List String :=
  let quoted := reFindQuoted query
  let caps := ((pySplit query).filter (fun w =>
    match w.toList with
    | [] => false
    | c :: _ => c.isUpper && w.length > 1 &&
        w ∉ (["What", "Who", "Where", "When", "Why", "How"] : List String)))
  dedupFirst (quoted ++ caps)

/-- The stop-word set of `_extract_keywords`. -/
def stopWords : List String :=
  ["the", "a", "an", "and", "or", "but", "in", "on", "at", "to", "for",
   "of", "with", "by", "from", "is", "are", "was", "were", "be", "been",
   "what", "who", "where", "when", "why", "how", "show", "find", "get"]

/-- `_extract_keywords`: lowercase, tokenize on word boundaries, drop stop
words and tokens of length ≤ 2. -/
def extract_keywords (query : String) : List String :=
  (wordRuns (pyLower query)).filter (fun w => w ∉ stopWords && w.length > 2)

/-- The source-weight table of `_rank_results`, with the `.get(_, 0.7)`
default for unknown sources. -/
def sourceWeight (s : String) : ℚ :=
  if s = "vector" then 1
  else if s = "graph" then 9/10
  else if s = "keyword" then 4/5
  else 7/10

/-- The weighting pass of `_rank_results`: `result.score *= weights.get(...)`
(the in-place update is modeled by returning the updated results). -/
def applyWeights (l : List SearchResult) : List SearchResult :=
  l.map fun r => { r with score := r.score * sourceWeight r.source }

/-- Insert into a descending-sorted list, after every earlier element of
greater-or-equal key: combined with `sortDescBy` this is the unique stable
descending sort, the behaviour of Python's `list.sort(key=..., reverse=True)`. -/
def insertDescBy (f : α → ℚ) (a : α) : List α → List α
  | [] => [a]
  | b :: bs => if f b ≤ f a then a :: b :: bs else b :: insertDescBy f a bs

/-- Stable descending sort by key `f`. -/
def sortDescBy (f : α → ℚ) : List α → List α
  | [] => []
  | a :: as => insertDescBy f a (sortDescBy f as)

/-- The deduplication key: `result.content[:100].lower()`. -/
def contentKey (r : SearchResult) : String :=
  pyLower (pyTake r.content 100)

/-- The deduplication pass of `_rank_results`: drop a result whose key was
already seen, walking the (sorted) list front to back. -/
def dedupByKey : List SearchResult → List String → List SearchResult
  | [], _ => []
  | r :: rs, seen =>
    if contentKey r ∈ seen then dedupByKey rs seen
    else r :: dedupByKey rs (contentKey r :: seen)

/-- `_rank_results`: weight by source, stable-sort descending by score,
deduplicate by content key. -/
def rank_results (l : List SearchResult) : List SearchResult :=
  dedupByKey (sortDescBy (fun r => r.score) (applyWeights l)) []

/-- An entity record returned by the graph store (a Neo4j node projected to
a dict; `.get` on absent keys yields Python `None`, modeled by `Option`). -/
structure GraphEntity where
  name : Option String
  etype : Option String
  description : Option String
  confidence : Option ℚ
deriving DecidableEq

/-- Python's rendering of `dict.get('k')` inside an f-string: the value, or
the text `None` when the key is absent. -/
def pyShowOpt (o : Option String) : String :=
  o.getD "None"

/-- A formatted hit produced by `VectorDatabase.semantic_search`
(`{id, text, score, metadata}`). -/
structure VectorHit where
  id : String
  text : String
  score : ℚ
  metadata : Metadata
deriving DecidableEq

/-- The JSON fields the triage call may return; absent fields are `none`
(Python `dict.get` with a default). -/
structure TriageFields where
  query_type : Option String
  rewritten_query : Option String
  requires_graph : Option Bool
  requires_vector : Option Bool
  requires_keyword : Option Bool
  entities_mentioned : Option (List String)
  modalities_expected : Option (List String)
  confidence : Option ℚ
deriving DecidableEq

/-- The behaviour of the external collaborators for one request: the graph
store, the vector store, and the generation service (one triage call and
one synthesis call).  `Except.error` models a raised exception.
`vdb_search` is the body of `VectorDatabase.semantic_search`'s `try:` block
(embedding plus Qdrant search plus formatting); that method catches any
exception itself and returns `[]`. -/
structure Oracles where
  find_entity : String → Except String (Option GraphEntity)
  find_related_entities : String → Except String (List GraphEntity)
  kg_keyword_search : List String → Except String (List GraphEntity)
  vdb_search : String → Nat → Except String (List VectorHit)
  triage : Except String TriageFields
  generate : Except String String
  eval_mode : String

/-- `QueryAnalysis` from `src/pipeline/query_processor.py` (pydantic keeps
`confidence` in `[0,1]`; `_triage_query` guarantees it, see below). -/
structure QueryAnalysis where
  original_query : String
  rewritten_query : String
  query_type : QueryType
  requires_graph : Bool
  requires_vector : Bool
  requires_keyword : Bool
  entities_mentioned : List String
  modalities_expected : List String
  confidence : ℚ
deriving DecidableEq

/-- The fallback analysis built in `_triage_query`'s `except` branch. -/
def fallbackAnalysis (query : String) : QueryAnalysis where
  original_query := query
  rewritten_query := query
  query_type := .FACTUAL_LOOKUP
  requires_graph := false
  requires_vector := true
  requires_keyword := false
  entities_mentioned := []
  modalities_expected := []
  confidence := 1/2

/-- `QueryProcessor._triage_query`.  The whole external call, JSON parse,
`QueryType[...]` lookup and pydantic construction sit inside one `try:`;
any failure (service error, unparseable response via `Except.error`,
unknown query-type label, out-of-range confidence) lands in the `except`
branch, which returns the fallback analysis. -/
def triage_query (query : String) (outcome : Except String TriageFields) : QueryAnalysis :=
  match outcome with
  | .error _ => fallbackAnalysis query
  | .ok p =>
    match queryTypeOfName (p.query_type.getD "FACTUAL_LOOKUP") with
    | none => fallbackAnalysis query
    | some qt =>
      let conf := p.confidence.getD (4/5)
      if 0 ≤ conf ∧ conf ≤ 1 then
        { original_query := query
          rewritten_query := p.rewritten_query.getD query
          query_type := qt
          requires_graph := p.requires_graph.getD false
          requires_vector := p.requires_vector.getD true
          requires_keyword := p.requires_keyword.getD false
          entities_mentioned := p.entities_mentioned.getD []
          modalities_expected := p.modalities_expected.getD ["text"]
          confidence := conf }
      else fallbackAnalysis query

/-- The `SearchResult` built for a found entity in `_graph_search_sync`. -/
def mkGraphEntityResult (e : GraphEntity) : SearchResult where
  content := "Entity: " ++ pyShowOpt e.name ++ " (" ++ pyShowOpt e.etype ++ ")\n" ++
    "Description: " ++ (e.description.getD "N/A")
  source := "graph"
  score := e.confidence.getD (4/5)
  metadata := [("entity_name", .str (pyShowOpt e.name)),
               ("entity_type", .str (pyShowOpt e.etype)),
               ("source", .str "knowledge_graph")]

/-- The `SearchResult` built for a related entity (SEMANTIC_LINKAGE only). -/
def mkRelatedResult (parent : String) (e : GraphEntity) : SearchResult where
  content := "Related Entity: " ++ pyShowOpt e.name ++ " (" ++ pyShowOpt e.etype ++ ")"
  source := "graph"
  score := (e.confidence.getD (7/10)) * (9/10)
  metadata := [("entity_name", .str (pyShowOpt e.name)),
               ("entity_type", .str (pyShowOpt e.etype)),
               ("source", .str "knowledge_graph"),
               ("relationship", .str "related_to"),
               ("parent_entity", .str parent)]

/-- `HybridSearchOrchestrator._graph_search_sync`: loop over the candidate
entities; a raised exception from `kg.find_entity` or
`kg.find_related_entities` propagates (there is no `try:` here). -/
def graph_search_sync (fe : String → Except String (Option GraphEntity))
    (fr : String → Except String (List GraphEntity)) (qt : QueryType) :
    List String → Except String (List SearchResult)
  | [] => .ok []
  | e :: rest => do
    let info ← fe e
    let here ← (match info with
      | none => Except.ok []
      | some ent =>
        if qt = QueryType.SEMANTIC_LINKAGE then do
          let related ← fr e
          Except.ok (mkGraphEntityResult ent :: related.map (mkRelatedResult e))
        else Except.ok [mkGraphEntityResult ent])
    let tail ← graph_search_sync fe fr qt rest
    .ok (here ++ tail)

/-- `HybridSearchOrchestrator._keyword_search_sync`: one
`kg.keyword_search(keywords, limit=10)` call (exceptions propagate), each
hit mapped to a fixed-score result. -/
def keyword_search_sync (ks : List String → Except String (List GraphEntity))
    (keywords : List String) :
    Except String (List SearchResult) := do
  let items ← ks keywords
  .ok (items.map fun e =>
    { content := pyShowOpt e.name ++ ": " ++ (e.description.getD "")
      source := "keyword"
      score := 17/20
      metadata := [("entity_name", .str (pyShowOpt e.name)),
                   ("entity_type", .str (pyShowOpt e.etype)),
                   ("source", .str "keyword_search"),
                   ("matched_keywords", .strList keywords)] })

/-- `VectorDatabase.semantic_search`: its whole body is a `try:` whose
`except` branch returns `[]`, so a backend failure yields the empty list. -/
def semantic_search (vs : String → Nat → Except String (List VectorHit))
    (query : String) (limit : Nat) : List VectorHit :=
  match vs query limit with
  | .error _ => []
  | .ok hits => hits

/-- `HybridSearchOrchestrator._vector_search_sync`: formats the
`semantic_search` hits; never raises, because `semantic_search` catches. -/
def vector_search_sync (vs : String → Nat → Except String (List VectorHit))
    (query : String) (top_k : Nat) : List SearchResult :=
  (semantic_search vs query top_k).map fun vr =>
    { content := vr.text
      source := "vector"
      score := vr.score
      metadata := dictInsert (dictInsert vr.metadata "source" (.str "vector_search"))
        "id" (.str vr.id) }

/-- `HybridSearchOrchestrator.search`: run the enabled strategies, merge,
rank, truncate to `top_k`.  The graph and keyword calls have no local
exception handling, so their failures propagate out of `search`. -/
def search (o : Oracles) (query : String) (qt : QueryType) (top_k : Nat)
    (enable_graph enable_keyword enable_vector : Bool) :
    Except String (List SearchResult) := do
  let entities := extract_entities query
  let keywords := extract_keywords query
  let r1 ← if enable_graph && !entities.isEmpty
    then graph_search_sync o.find_entity o.find_related_entities qt entities
    else .ok []
  let r2 ← if enable_keyword && !keywords.isEmpty
    then keyword_search_sync o.kg_keyword_search keywords else .ok []
  let r3 := if enable_vector then vector_search_sync o.vdb_search query top_k else []
  .ok ((rank_results (r1 ++ r2 ++ r3)).take top_k)

/-- A source citation record attached to an `Answer`. -/
structure Citation where
  id : Nat
  source_type : String
  score : ℚ
  metadata : Metadata
deriving DecidableEq

/-- `Answer` from `src/pipeline/query_processor.py`.  `evaluation_metrics`
belongs to the out-of-scope evaluation framework and is modeled opaquely. -/
structure Answer where
  query : String
  answer : String
  sources : List Citation
  confidence : ℚ
  query_type : QueryType
  retrieved_contexts : List String
  evaluation_metrics : Option Unit
  warning : Option String
deriving DecidableEq

/-- Constructing a pydantic `Answer`: the `Field(ge=0.0, le=1.0)` constraint
on `confidence` raises a `ValidationError` when violated. -/
def mkAnswer (query answer : String) (sources : List Citation) (confidence : ℚ)
    (qt : QueryType) (contexts : List String) (warning : Option String) :
    Except String Answer :=
  if 0 ≤ confidence ∧ confidence ≤ 1 then
    .ok { query := query, answer := answer, sources := sources
          confidence := confidence, query_type := qt
          retrieved_contexts := contexts, evaluation_metrics := none
          warning := warning }
  else .error "ValidationError: confidence must be in [0, 1]"

/-- Containment of `sub` as a contiguous segment of `l`. -/
def hasInfix (sub : List Char) : List Char → Bool
  | [] => sub.isEmpty
  | c :: cs => sub.isPrefixOf (c :: cs) || hasInfix sub cs

/-- Python substring containment `sub in s`. -/
def pyInStr (sub s : String) : Bool :=
  hasInfix sub.toList s.toList

/-- The insufficiency markers checked by `_calculate_confidence`. -/
def insufficientIndicators : List String :=
  ["don't have enough", "insufficient", "cannot answer", "unclear"]

/-- `QueryProcessor._calculate_confidence`. -/
def calculate_confidence (answer : String) (results : List SearchResult)
    (analysisConfidence : ℚ) : ℚ :=
  if results.isEmpty then 0
  else
    let avg := ((results.take 5).map (fun r => r.score)).sum /
      ((min results.length 5 : ℕ) : ℚ)
    if insufficientIndicators.any (fun ind => pyInStr ind (pyLower answer)) then
      min (3/10) avg
    else
      min ((avg + analysisConfidence) / 2) 1

/-- The literal sentinel phrase the system prompt asks the generator to
emit on inadequate context, checked verbatim by `_post_process_answer`. -/
def insufficientSentinel : String :=
  "I don't have enough information"

/-- `QueryProcessor._post_process_answer`: citations from the top 5 results
(1-based ids), confidence, warning, pydantic `Answer` construction. -/
def post_process_answer (query answer_text : String)
    (search_results : List SearchResult) (analysis : QueryAnalysis) :
    Except String Answer :=
  let sources := (search_results.take 5).enum.map fun p =>
    { id := p.1 + 1, source_type := p.2.source, score := p.2.score
      metadata := p.2.metadata : Citation }
  let confidence := calculate_confidence answer_text search_results analysis.confidence
  let warning :=
    if confidence < 1/2 then
      some "Low confidence answer - information may be incomplete"
    else if pyInStr insufficientSentinel answer_text then
      some "Insufficient context to fully answer query"
    else none
  mkAnswer query answer_text sources confidence analysis.query_type
    (search_results.map (fun r => r.content)) warning

/-- `QueryProcessor._handle_no_results` (all field values are constants, so
the pydantic constraints hold and construction cannot fail). -/
def handle_no_results (query : String) (analysis : QueryAnalysis) : Answer where
  query := query
  answer := "I couldn't find relevant information to answer your question. " ++
    "This could mean: (1) the information isn't in the knowledge base, " ++
    "(2) the query needs to be rephrased, or (3) the topic is outside " ++
    "the current domain."
  sources := []
  confidence := 0
  query_type := analysis.query_type
  retrieved_contexts := []
  evaluation_metrics := none
  warning := some "No relevant context found"

/-- `QueryProcessor._generate_answer`: the external call's result, with the
`except` branch substituting an error-describing string (the prompt text
built from the context does not influence the modeled outcome, which is
the oracle's). -/
def generate_answer (g : Except String String) : String :=
  match g with
  | .ok t => t
  | .error e => "Error generating answer: " ++ e

/-- `QueryRequest` (pydantic). -/
structure QueryRequest where
  query : String
  user_id : Option String
  context : Option Metadata
deriving DecidableEq

/-- Validation of `QueryRequest.query`: pydantic checks the
`Field(min_length=3, max_length=1000)` constraints on the raw string first;
the `field_validator` (mode `after`) then normalizes whitespace and
rejects fewer than 2 words.  Python `len` on an ASCII string is the
character count. -/
def validate_query (raw : String) : Except String String :=
  if raw.length < 3 then .error "String should have at least 3 characters"
  else if 1000 < raw.length then .error "String should have at most 1000 characters"
  else
    let v := normalizeWs raw
    if (pySplit v).length < 2 then
      .error "Query too short - please provide more context"
    else .ok v

/-- Constructing a `QueryRequest` runs the validation; no retrieval oracle
is consulted. -/
def mkQueryRequest (raw : String) (user_id : Option String)
    (ctx : Option Metadata) : Except String QueryRequest := do
  let q ← validate_query raw
  .ok { query := q, user_id := user_id, context := ctx }

/-- `QueryProcessor.process`: triage, hybrid search with `top_k=10`,
no-results short circuit, answer generation, post-processing, and the
development-mode evaluation step (whose metrics object belongs to the
out-of-scope evaluation framework and is modeled opaquely). -/
def process (o : Oracles) (req : QueryRequest) : Except String Answer := do
  let analysis := triage_query req.query o.triage
  let search_results ← search o analysis.rewritten_query analysis.query_type 10
    analysis.requires_graph analysis.requires_keyword analysis.requires_vector
  if search_results.isEmpty then
    .ok (handle_no_results req.query analysis)
  else do
    let answer_text := generate_answer o.generate
    let answer ← post_process_answer req.query answer_text search_results analysis
    if o.eval_mode = "development" then
      .ok { answer with evaluation_metrics := some () }
    else
      .ok answer

/-- Descending sortedness by key `f`. -/
def SortedDesc {α : Type*} (f : α → ℚ) (l : List α) : Prop :=
  l.Pairwise (fun x y => f y ≤ f x)

/-- Sort key on an index-tagged result. -/
def taggedScore (p : ℕ × SearchResult) : ℚ := p.2.score

/-- Strict descending order on tagged results, ties broken by the tag:
the order a stable descending sort produces. -/
def RLex (p q : ℕ × SearchResult) : Prop :=
  q.2.score < p.2.score ∨ (q.2.score = p.2.score ∧ p.1 < q.1)

/-! Concrete fixtures used by witnesses and counterexamples. -/

/-- A raw query of 1001 characters whose whitespace-normalized form is the
3-character, 2-word string `a b`. -/
def overlongQuery : String :=
  "a" ++ String.mk (List.replicate 999 ' ') ++ "b"

/-- A graph-sourced result with raw score 1. -/
def gRes : SearchResult :=
  { content := "g", source := "graph", score := 1, metadata := [] }

/-- A keyword-sourced and a vector-sourced result with the same raw score. -/
def kwRes : SearchResult :=
  { content := "kw doc", source := "keyword", score := 4/5, metadata := [] }

/-- See `kwRes`. -/
def vecRes : SearchResult :=
  { content := "vec doc", source := "vector", score := 4/5, metadata := [] }

/-- A vector-store behaviour that always raises. -/
def failingVdb : String → Nat → Except String (List VectorHit) :=
  fun _ _ => .error "vector store down"

/-- Collaborators for which every retrieval strategy contributes nothing:
triage fails (so only the vector strategy is enabled) and the vector
backend raises (caught inside `semantic_search`). -/
def noResultsOracles : Oracles where
  find_entity := fun _ => .ok none
  find_related_entities := fun _ => .ok []
  kg_keyword_search := fun _ => .ok []
  vdb_search := failingVdb
  triage := .error "triage down"
  generate := .ok "unused"
  eval_mode := "production"

/-- A valid request used with `noResultsOracles`. -/
def noResultsReq : QueryRequest :=
  { query := "missing topic", user_id := none, context := none }

/-- The single vector hit of the spec's confidence scenario (raw score 0.82). -/
def scenarioHit : VectorHit :=
  { id := "chunk-1", text := "Q4 revenue was $5M.", score := 82/100, metadata := [] }

/-- A triage response enabling only the vector strategy, confidence 0.9. -/
def scenarioTriage : TriageFields where
  query_type := some "FACTUAL_LOOKUP"
  rewritten_query := none
  requires_graph := some false
  requires_vector := some true
  requires_keyword := some false
  entities_mentioned := some ["Q4 report"]
  modalities_expected := some ["text"]
  confidence := some (9/10)

/-- Collaborators of the spec's confidence scenario. -/
def scenarioOracles : Oracles where
  find_entity := fun _ => .error "unused"
  find_related_entities := fun _ => .error "unused"
  kg_keyword_search := fun _ => .error "unused"
  vdb_search := fun _ _ => .ok [scenarioHit]
  triage := .ok scenarioTriage
  generate := .ok "The Q4 revenue mentioned is $5M [Source 1]."
  eval_mode := "production"

/-- The spec's scenario query. -/
def scenarioReq : QueryRequest :=
  { query := "What is the revenue mentioned in the Q4 report?", user_id := none,
    context := none }

/-- The analysis `_triage_query` produces from `scenarioTriage`. -/
def scenarioAnalysis : QueryAnalysis where
  original_query := scenarioReq.query
  rewritten_query := scenarioReq.query
  query_type := .FACTUAL_LOOKUP
  requires_graph := false
  requires_vector := true
  requires_keyword := false
  entities_mentioned := ["Q4 report"]
  modalities_expected := ["text"]
  confidence := 9/10

/-- The fused result of the scenario (vector weight 1.0 leaves 0.82). -/
def scenarioResult : SearchResult where
  content := "Q4 revenue was $5M."
  source := "vector"
  score := 82/100
  metadata := [("source", .str "vector_search"), ("id", .str "chunk-1")]

/-- The Answer `process` returns in the scenario: confidence
(0.82 + 0.9) / 2 = 0.86, no warning. -/
def scenarioAnswer : Answer where
  query := scenarioReq.query
  answer := "The Q4 revenue mentioned is $5M [Source 1]."
  sources := [{ id := 1, source_type := "vector", score := 82/100
                metadata := [("source", .str "vector_search"), ("id", .str "chunk-1")] }]
  confidence := 43/50
  query_type := .FACTUAL_LOOKUP
  retrieved_contexts := ["Q4 revenue was $5M."]
  evaluation_metrics := none
  warning := none

/-- A triage response that enables the graph strategy. -/
def cexTriage : TriageFields where
  query_type := some "FACTUAL_LOOKUP"
  rewritten_query := none
  requires_graph := some true
  requires_vector := some true
  requires_keyword := some false
  entities_mentioned := some ["Acme"]
  modalities_expected := some ["text"]
  confidence := some (9/10)

/-- Collaborators whose graph store raises on every entity lookup. -/
def cexOracles : Oracles where
  find_entity := fun _ => .error "neo4j down"
  find_related_entities := fun _ => .error "neo4j down"
  kg_keyword_search := fun _ => .ok []
  vdb_search := fun _ _ => .ok []
  triage := .ok cexTriage
  generate := .ok "irrelevant"
  eval_mode := "production"

/-- A valid request whose query contains a capitalized entity token. -/
def cexReq : QueryRequest :=
  { query := "Acme quarterly revenue", user_id := none, context := none }

/-- The analysis `_triage_query` produces from `cexTriage`. -/
def cexAnalysis : QueryAnalysis where
  original_query := cexReq.query
  rewritten_query := cexReq.query
  query_type := .FACTUAL_LOOKUP
  requires_graph := true
  requires_vector := true
  requires_keyword := false
  entities_mentioned := ["Acme"]
  modalities_expected := ["text"]
  confidence := 9/10

section SortLemmas

variable {α β : Type*} (f : α → ℚ)

theorem insertDescBy_perm (a : α) (l : List α) :
    (insertDescBy f a l).Perm (a :: l) := by
  induction l with
  | nil => exact List.Perm.refl _
  | cons b bs ih =>
    simp only [insertDescBy]
    split
    · exact List.Perm.refl _
    · exact (ih.cons b).trans (List.Perm.swap a b bs)

theorem sortDescBy_perm (l : List α) : (sortDescBy f l).Perm l := by
  induction l with
  | nil => exact List.Perm.refl _
  | cons a as ih => exact (insertDescBy_perm f a _).trans (ih.cons a)

theorem insertDescBy_sorted (a : α) {l : List α} (h : SortedDesc f l) :
    SortedDesc f (insertDescBy f a l) := by
  induction l with
  | nil => simp [insertDescBy, SortedDesc]
  | cons b bs ih =>
    rcases List.pairwise_cons.mp h with ⟨hb, hbs⟩
    simp only [insertDescBy]
    split_ifs with hba
    · refine List.pairwise_cons.mpr ⟨?_, h⟩
      intro y hy
      rcases List.mem_cons.mp hy with rfl | hy
      · exact hba
      · exact (hb y hy).trans hba
    · refine List.pairwise_cons.mpr ⟨?_, ih hbs⟩
      intro y hy
      rcases (insertDescBy_perm f a bs).mem_iff.mp hy with hy'
      rcases List.mem_cons.mp hy' with rfl | hy''
      · exact le_of_lt (lt_of_not_le hba)
      · exact hb y hy''

theorem sortDescBy_sorted (l : List α) : SortedDesc f (sortDescBy f l) := by
  induction l with
  | nil => exact List.Pairwise.nil
  | cons a as ih => exact insertDescBy_sorted f a ih

theorem insertDescBy_of_le (a : α) (l : List α) (h : ∀ b ∈ l, f b ≤ f a) :
    insertDescBy f a l = a :: l := by
  cases l with
  | nil => rfl
  | cons b bs => simp [insertDescBy, h b (List.mem_cons_self b bs)]

theorem sortDescBy_of_sorted {l : List α} (h : SortedDesc f l) :
    sortDescBy f l = l := by
  induction l with
  | nil => rfl
  | cons a as ih =>
    rcases List.pairwise_cons.mp h with ⟨ha, has⟩
    rw [sortDescBy, ih has, insertDescBy_of_le f a as ha]

theorem insertDescBy_map (g : β → α) (a : β) (l : List β) :
    (insertDescBy (fun b => f (g b)) a l).map g = insertDescBy f (g a) (l.map g) := by
  induction l with
  | nil => rfl
  | cons b bs ih =>
    simp only [insertDescBy, List.map_cons]
    split_ifs
    · simp
    · simp [ih]

theorem sortDescBy_map (g : β → α) (l : List β) :
    (sortDescBy (fun b => f (g b)) l).map g = sortDescBy f (l.map g) := by
  induction l with
  | nil => rfl
  | cons a as ih => rw [sortDescBy, insertDescBy_map, ih, List.map_cons, sortDescBy]

end SortLemmas

section StabilityLemmas

theorem insertDescBy_stable (a : ℕ × SearchResult) {l : List (ℕ × SearchResult)}
    (hs : SortedDesc taggedScore l) (hp : l.Pairwise RLex)
    (ha : ∀ b ∈ l, a.1 < b.1) : (insertDescBy taggedScore a l).Pairwise RLex := by
  induction l with
  | nil => simp [insertDescBy]
  | cons b bs ih =>
    rcases List.pairwise_cons.mp hs with ⟨hsb, hsbs⟩
    rcases List.pairwise_cons.mp hp with ⟨hpb, hpbs⟩
    simp only [insertDescBy]
    split_ifs with hba
    · refine List.pairwise_cons.mpr ⟨?_, hp⟩
      intro y hy
      have hy' : taggedScore y ≤ taggedScore a := by
        rcases List.mem_cons.mp hy with rfl | hy
        · exact hba
        · exact (hsb y hy).trans hba
      rcases lt_or_eq_of_le hy' with hlt | heq
      · exact Or.inl hlt
      · exact Or.inr ⟨heq, ha y hy⟩
    · refine List.pairwise_cons.mpr ⟨?_, ih hsbs hpbs (fun c hc => ha c (List.mem_cons_of_mem b hc))⟩
      intro y hy
      rcases (insertDescBy_perm taggedScore a bs).mem_iff.mp hy with hy'
      rcases List.mem_cons.mp hy' with rfl | hy''
      · exact Or.inl (lt_of_not_le hba)
      · exact hpb y hy''

theorem sortDescBy_stable {l : List (ℕ × SearchResult)}
    (hidx : l.Pairwise (fun p q => p.1 < q.1)) :
    (sortDescBy taggedScore l).Pairwise RLex := by
  induction l with
  | nil => simp [sortDescBy]
  | cons a as ih =>
    rcases List.pairwise_cons.mp hidx with ⟨haidx, hasidx⟩
    refine insertDescBy_stable a (sortDescBy_sorted _ as) (ih hasidx) ?_
    intro b hb
    exact haidx b ((sortDescBy_perm taggedScore as).mem_iff.mp hb)

theorem enumFrom_pairwise_lt (n : ℕ) (l : List SearchResult) :
    (List.enumFrom n l).Pairwise (fun p q : ℕ × SearchResult => p.1 < q.1) := by
  induction l generalizing n with
  | nil => simp
  | cons a as ih =>
    refine List.pairwise_cons.mpr ⟨?_, ih (n + 1)⟩
    intro q hq
    have := List.le_fst_of_mem_enumFrom hq
    omega

end StabilityLemmas

section DedupLemmas

theorem dedupByKey_sublist (l : List SearchResult) (seen : List String) :
    (dedupByKey l seen).Sublist l := by
  induction l generalizing seen with
  | nil => simp [dedupByKey]
  | cons r rs ih =>
    simp only [dedupByKey]
    split_ifs
    · exact (ih seen).cons r
    · exact (ih _).cons₂ r

theorem dedupByKey_keys (l : List SearchResult) (seen : List String) :
    ((dedupByKey l seen).map contentKey).Nodup ∧
      ∀ r ∈ dedupByKey l seen, contentKey r ∉ seen := by
  induction l generalizing seen with
  | nil => simp [dedupByKey]
  | cons r rs ih =>
    simp only [dedupByKey]
    split_ifs with hin
    · exact ih seen
    · rcases ih (contentKey r :: seen) with ⟨hnd, hni⟩
      refine ⟨?_, ?_⟩
      · refine List.nodup_cons.mpr ⟨?_, hnd⟩
        intro hmem
        rcases List.mem_map.mp hmem with ⟨x, hx, hkx⟩
        apply hni x hx
        rw [hkx]
        exact List.mem_cons_self _ _
      · intro x hx
        rcases List.mem_cons.mp hx with rfl | hx'
        · exact hin
        · intro hxs
          exact hni x hx' (List.mem_cons_of_mem _ hxs)

theorem dedupByKey_covers (l : List SearchResult) (seen : List String) :
    ∀ r ∈ l, contentKey r ∈ seen ∨
      contentKey r ∈ (dedupByKey l seen).map contentKey := by
  induction l generalizing seen with
  | nil => simp
  | cons x xs ih =>
    intro r hr
    simp only [dedupByKey]
    split_ifs with hin
    · rcases List.mem_cons.mp hr with rfl | hr'
      · exact Or.inl hin
      · exact ih seen r hr'
    · rcases List.mem_cons.mp hr with rfl | hr'
      · exact Or.inr (by simp)
      · rcases ih (contentKey x :: seen) r hr' with hseen | hmap
        · rcases List.mem_cons.mp hseen with heq | hseen'
          · exact Or.inr (by simp [heq])
          · exact Or.inl hseen'
        · exact Or.inr (by simp [hmap])

theorem dedupByKey_first_wins (l : List SearchResult) (seen : List String) :
    ∀ r ∈ dedupByKey l seen,
      l.find? (fun x => contentKey x == contentKey r) = some r := by
  induction l generalizing seen with
  | nil => simp [dedupByKey]
  | cons x xs ih =>
    intro r hr
    simp only [dedupByKey] at hr
    split_ifs at hr with hin
    · have hne : contentKey r ≠ contentKey x := by
        intro heq
        apply (dedupByKey_keys xs seen).2 r hr
        rw [heq]
        exact hin
      rw [List.find?_cons_of_neg _ (by simpa using fun h => hne h.symm)]
      exact ih seen r hr
    · rcases List.mem_cons.mp hr with rfl | hr'
      · exact List.find?_cons_of_pos _ (beq_iff_eq.mpr rfl)
      · have hnotin : contentKey r ∉ contentKey x :: seen :=
          (dedupByKey_keys xs (contentKey x :: seen)).2 r hr'
        have hne : contentKey r ≠ contentKey x := by
          intro heq
          apply hnotin
          rw [heq]
          exact List.mem_cons_self _ _
        rw [List.find?_cons_of_neg _ (by simpa using fun h => hne h.symm)]
        exact ih _ r hr'

theorem dedupByKey_of_clean {l : List SearchResult} {seen : List String}
    (hnd : (l.map contentKey).Nodup) (hdisj : ∀ r ∈ l, contentKey r ∉ seen) :
    dedupByKey l seen = l := by
  induction l generalizing seen with
  | nil => rfl
  | cons r rs ih =>
    simp only [dedupByKey]
    rw [List.map_cons] at hnd
    rcases List.nodup_cons.mp hnd with ⟨hrk, hrs⟩
    rw [if_neg (hdisj r (List.mem_cons_self r rs)),
      ih hrs ?_]
    intro x hx
    simp only [List.mem_cons]
    rintro (heq | hseen)
    · apply hrk
      rw [← heq]
      exact List.mem_map_of_mem contentKey hx
    · exact hdisj x (List.mem_cons_of_mem r hx) hseen

end DedupLemmas

section PipelineLemmas

theorem except_ok_bind {ε α β : Type} (a : α) (f : α → Except ε β) :
    (Except.ok a >>= f) = f a := rfl

theorem except_error_bind {ε α β : Type} (e : ε) (f : α → Except ε β) :
    ((Except.error e : Except ε α) >>= f) = Except.error e := rfl

theorem process_of_search_empty (o : Oracles) (req : QueryRequest)
    (h : search o (triage_query req.query o.triage).rewritten_query
      (triage_query req.query o.triage).query_type 10
      (triage_query req.query o.triage).requires_graph
      (triage_query req.query o.triage).requires_keyword
      (triage_query req.query o.triage).requires_vector = Except.ok []) :
    process o req =
      Except.ok (handle_no_results req.query (triage_query req.query o.triage)) := by
  simp only [process]
  rw [h]
  rfl

theorem scenario_triage_eval :
    triage_query scenarioReq.query scenarioOracles.triage = scenarioAnalysis := by
  show triage_query scenarioReq.query (.ok scenarioTriage) = scenarioAnalysis
  unfold triage_query
  norm_num [scenarioTriage, Option.getD, queryTypeOfName, scenarioAnalysis]

theorem scenario_search_eval :
    search scenarioOracles scenarioAnalysis.rewritten_query
      scenarioAnalysis.query_type 10 scenarioAnalysis.requires_graph
      scenarioAnalysis.requires_keyword scenarioAnalysis.requires_vector =
      Except.ok [scenarioResult] := by
  show search scenarioOracles scenarioReq.query .FACTUAL_LOOKUP 10 false false true =
    Except.ok [scenarioResult]
  simp only [search]
  have hv : vector_search_sync scenarioOracles.vdb_search scenarioReq.query 10 =
      [{ content := "Q4 revenue was $5M.", source := "vector", score := 82/100
         metadata := [("source", .str "vector_search"), ("id", .str "chunk-1")] }] := by
    simp [vector_search_sync, semantic_search, scenarioOracles, scenarioHit, dictInsert]
  have hr : rank_results
      [{ content := "Q4 revenue was $5M.", source := "vector", score := 82/100
         metadata := [("source", .str "vector_search"), ("id", .str "chunk-1")] }] =
      [scenarioResult] := by
    simp [rank_results, applyWeights, sortDescBy, insertDescBy, dedupByKey,
      sourceWeight, scenarioResult]
  simp [hv, hr, except_ok_bind]

theorem scenario_process_eval :
    process scenarioOracles scenarioReq = Except.ok scenarioAnswer := by
  have hmark : insufficientIndicators.any
      (fun ind => pyInStr ind (pyLower "The Q4 revenue mentioned is $5M [Source 1].")) =
      false := by
    decide
  have hsent : pyInStr insufficientSentinel
      "The Q4 revenue mentioned is $5M [Source 1]." = false := by
    decide
  simp only [process, scenario_triage_eval, scenario_search_eval, except_ok_bind]
  norm_num [post_process_answer, mkAnswer, calculate_confidence, generate_answer,
    scenarioOracles, scenarioAnalysis, scenarioResult, scenarioAnswer, hmark, hsent,
    except_ok_bind]
  exact fun h => absurd h (by decide)

theorem post_process_invariants (q atext : String) (results : List SearchResult)
    (analysis : QueryAnalysis) (a : Answer)
    (hp : post_process_answer q atext results analysis = Except.ok a) :
    (0 ≤ a.confidence ∧ a.confidence ≤ 1) ∧
    a.sources.length ≤ 5 ∧
    a.sources.length ≤ a.retrieved_contexts.length ∧
    (a.warning.isSome = true ↔
      (a.confidence < 1/2 ∨ pyInStr insufficientSentinel atext = true)) ∧
    a.answer = atext ∧
    (results ≠ [] → a.sources ≠ []) := by
  simp only [post_process_answer, mkAnswer] at hp
  split_ifs at hp with hc h1 h2
  · simp only [Except.ok.injEq] at hp
    subst hp
    refine ⟨hc, by simp [List.length_take], by simp [List.length_take],
      iff_of_true rfl (Or.inl h1), rfl, ?_⟩
    intro hne
    cases results with
    | nil => exact absurd rfl hne
    | cons r rs => simp
  · simp only [Except.ok.injEq] at hp
    subst hp
    refine ⟨hc, by simp [List.length_take], by simp [List.length_take],
      iff_of_true rfl (Or.inr h2), rfl, ?_⟩
    intro hne
    cases results with
    | nil => exact absurd rfl hne
    | cons r rs => simp
  · simp only [Except.ok.injEq] at hp
    subst hp
    refine ⟨hc, by simp [List.length_take], by simp [List.length_take],
      iff_of_false (by simp) (by rintro (h | h); exacts [h1 h, h2 h]), rfl, ?_⟩
    intro hne
    cases results with
    | nil => exact absurd rfl hne
    | cons r rs => simp

theorem rank_gRes :
    rank_results [gRes] =
      [{ content := "g", source := "graph", score := 9/10, metadata := [] }] := by
  simp [rank_results, applyWeights, sortDescBy, insertDescBy, dedupByKey,
    sourceWeight, gRes]

theorem cex_triage_eval :
    triage_query cexReq.query cexOracles.triage = cexAnalysis := by
  show triage_query cexReq.query (.ok cexTriage) = cexAnalysis
  unfold triage_query
  norm_num [cexTriage, Option.getD, queryTypeOfName, cexAnalysis]

theorem cex_search_eval :
    search cexOracles cexAnalysis.rewritten_query cexAnalysis.query_type 10
      cexAnalysis.requires_graph cexAnalysis.requires_keyword
      cexAnalysis.requires_vector = Except.error "neo4j down" := by
  rfl

end PipelineLemmas

/-! Claim theorems. -/

/-- C7 (counterexample): the spec claims entity extraction on the query
`Find "Acme Corp" revenue` yields exactly the set containing `Acme Corp`.
It does not: the capitalized tokens `Find` and `Corp"` (whitespace
tokenization keeps the trailing quote) also pass the capitalized-word
heuristic, since `Find` is not in the interrogative stop-set. -/
theorem C7_counterexample :
    (extract_entities "Find \"Acme Corp\" revenue").toFinset ≠
      ({"Acme Corp"} : Finset String) := by
  decide

/-- C7 (amended): entity extraction on `Find "Acme Corp" revenue` yields
exactly the set with the quoted phrase `Acme Corp` kept whole plus the
capitalized tokens `Find` and `Corp"`. -/
theorem C7_amended :
    (extract_entities "Find \"Acme Corp\" revenue").toFinset =
      ({"Acme Corp", "Find", "Corp\""} : Finset String) := by
  decide

/-- C8: whenever the external classification call fails or its response is
unparseable (modeled as `Except.error`), or the returned query-type label
is not a `QueryType` member name, `_triage_query` returns exactly the
fallback analysis: FACTUAL_LOOKUP, the original query as the rewrite,
graph and keyword disabled, vector enabled, no entities, confidence 0.5.
The function is total, so no exception escapes to the caller. -/
theorem C8_triage_fallback :
    ∀ (query : String) (outcome : Except String TriageFields),
    ((∃ e, outcome = Except.error e) ∨
      (∃ p s, outcome = Except.ok p ∧ p.query_type = some s ∧
        queryTypeOfName s = none)) →
    triage_query query outcome = fallbackAnalysis query ∧
    (fallbackAnalysis query).query_type = QueryType.FACTUAL_LOOKUP ∧
    (fallbackAnalysis query).rewritten_query = query ∧
    (fallbackAnalysis query).requires_graph = false ∧
    (fallbackAnalysis query).requires_vector = true ∧
    (fallbackAnalysis query).requires_keyword = false ∧
    (fallbackAnalysis query).entities_mentioned = [] ∧
    (fallbackAnalysis query).confidence = 1/2 := by
  intro query outcome h
  refine ⟨?_, rfl, rfl, rfl, rfl, rfl, rfl, rfl⟩
  rcases h with ⟨e, rfl⟩ | ⟨p, s, rfl, hqt, hnone⟩
  · rfl
  · simp [triage_query, hqt, hnone]

/-- C8 witness: a failing service call at a concrete query. -/
theorem C8_witness :
    triage_query "what is revenue" (Except.error "service down") =
      fallbackAnalysis "what is revenue" :=
  (C8_triage_fallback "what is revenue" (Except.error "service down")
    (Or.inl ⟨"service down", rfl⟩)).1

/-- C9 (counterexample): the spec claims validation rejects exactly the
queries whose whitespace-normalized form is outside 3–1000 characters or
has fewer than 2 words.  This 1001-character raw query normalizes to the
perfectly acceptable `a b`, yet pydantic's `max_length=1000` rejects it,
because the length bounds are checked on the raw string before the
normalizing validator runs. -/
theorem C9_counterexample :
    validate_query overlongQuery =
      Except.error "String should have at most 1000 characters" ∧
    3 ≤ (normalizeWs overlongQuery).length ∧
    (normalizeWs overlongQuery).length ≤ 1000 ∧
    2 ≤ (pySplit (normalizeWs overlongQuery)).length := by
  refine ⟨?_, by decide, by decide, by decide⟩
  rfl

/-- C9 (amended): validation rejects exactly the queries whose RAW length
is outside [3,1000] or whose whitespace-normalized form has fewer than 2
whitespace-delimited words; every accepted query is returned in its
whitespace-normalized form.  (The length bounds are pydantic `Field`
constraints on the raw string; only the word count sees the normalized
form.) -/
theorem C9_amended :
    ∀ raw : String,
    (validate_query raw = Except.ok (normalizeWs raw) ↔
      3 ≤ raw.length ∧ raw.length ≤ 1000 ∧
        2 ≤ (pySplit (normalizeWs raw)).length) ∧
    (∀ v, validate_query raw = Except.ok v → v = normalizeWs raw) := by
  intro raw
  unfold validate_query
  constructor
  · constructor
    · intro h
      split_ifs at h <;> simp_all
    · rintro ⟨h1, h2, h3⟩
      rw [if_neg (by omega), if_neg (by omega), if_neg (by omega)]
  · intro v hv
    by_cases h1 : raw.length < 3 <;> by_cases h2 : 1000 < raw.length <;>
      by_cases h3 : (pySplit (normalizeWs raw)).length < 2 <;> simp_all

/-- C9 witness: the minimal accepted query `a b`. -/
theorem C9_amended_witness : validate_query "a b" = Except.ok (normalizeWs "a b") :=
  (C9_amended "a b").1.mpr (by decide)

/-- C6 (counterexample): fusion is not idempotent.  Each application of
`_rank_results` multiplies every score by its source weight again: a graph
result entering with score 1 leaves a single application with score 0.9
and a double application with score 0.81. -/
theorem C6_counterexample :
    rank_results (rank_results [gRes]) ≠ rank_results [gRes] := by
  have h0 : rank_results [gRes] =
      [{ content := "g", source := "graph", score := 9/10, metadata := [] }] := by
    simp [rank_results, applyWeights, sortDescBy, insertDescBy, dedupByKey,
      sourceWeight, gRes]
  have h1 : rank_results
      [({ content := "g", source := "graph", score := 9/10, metadata := [] } :
        SearchResult)] =
      [{ content := "g", source := "graph", score := (9/10) * (9/10)
         metadata := [] }] := by
    simp [rank_results, applyWeights, sortDescBy, insertDescBy, dedupByKey,
      sourceWeight]
  rw [h0, h1]
  intro h
  have := (List.cons.injEq _ _ _ _).mp h
  have hs := congrArg SearchResult.score this.1
  norm_num at hs

/-- C6 (amended): re-running the sort-and-dedup stage of `_rank_results` on
its own output yields the same sequence (same elements, same order, same
scores); the full `rank` is not idempotent only because it re-applies the
source-weight multipliers to the scores on every application. -/
theorem C6_amended :
    ∀ l : List SearchResult,
    dedupByKey (sortDescBy (fun r => r.score) (rank_results l)) [] =
      rank_results l := by
  intro l
  have hsub : (rank_results l).Sublist
      (sortDescBy (fun r => r.score) (applyWeights l)) :=
    dedupByKey_sublist _ _
  have hsorted : SortedDesc (fun r => r.score) (rank_results l) :=
    List.Pairwise.sublist hsub (sortDescBy_sorted _ _)
  rw [sortDescBy_of_sorted _ hsorted]
  exact dedupByKey_of_clean (dedupByKey_keys _ _).1 (by simp)

/-- C1 (counterexample): the spec claims any enabled strategy's external
failure is caught and `process` still returns a valid Answer.  With a graph
store whose entity lookup raises and triage enabling the graph strategy on
a query with a capitalized entity token, the exception propagates out of
`search` and `process` raises: there is no `try` around the graph (or
keyword) strategy calls. -/
theorem C1_counterexample :
    process cexOracles cexReq = Except.error "neo4j down" := by
  simp only [process, cex_triage_eval]
  rw [cex_search_eval]
  rfl

/-- C1 (amended): only the vector strategy's external-call failure is
caught — inside `VectorDatabase.semantic_search`, which returns `[]` — so
a request against an always-raising vector backend behaves exactly as if
the vector store had returned no hits: the other strategies' results are
still merged and `process` returns the same Answer.  Graph and keyword
strategy failures are not caught and abort `process` (see the
counterexample). -/
theorem C1_amended :
    ∀ (o : Oracles) (req : QueryRequest),
    (∀ q k, ∃ e, o.vdb_search q k = Except.error e) →
    process o req = process { o with vdb_search := fun _ _ => Except.ok [] } req := by
  intro o req h
  have hv : ∀ q k, vector_search_sync o.vdb_search q k = [] := by
    intro q k
    obtain ⟨e, he⟩ := h q k
    simp [vector_search_sync, semantic_search, he]
  have hv2 : ∀ q k, vector_search_sync (fun _ _ => (Except.ok [] :
      Except String (List VectorHit))) q k = [] := fun _ _ => rfl
  simp only [process, search, hv, hv2]

/-- C1 witness: the amended theorem applied to concrete collaborators whose
vector backend always raises. -/
theorem C1_amended_witness :
    process noResultsOracles noResultsReq =
      process { noResultsOracles with vdb_search := fun _ _ => Except.ok [] }
        noResultsReq :=
  C1_amended noResultsOracles noResultsReq
    (fun _ _ => ⟨"vector store down", rfl⟩)

/-- C2: whenever the hybrid search the pipeline performs returns the empty
list, `process` returns exactly the graceful-failure Answer — confidence
0.0, empty sources, warning `No relevant context found` — and does so
without consulting the generation service (replacing the generation
oracle does not change the outcome). -/
theorem C2_no_results :
    ∀ (o : Oracles) (req : QueryRequest),
    search o (triage_query req.query o.triage).rewritten_query
      (triage_query req.query o.triage).query_type 10
      (triage_query req.query o.triage).requires_graph
      (triage_query req.query o.triage).requires_keyword
      (triage_query req.query o.triage).requires_vector = Except.ok [] →
    process o req =
      Except.ok (handle_no_results req.query (triage_query req.query o.triage)) ∧
    (handle_no_results req.query (triage_query req.query o.triage)).confidence = 0 ∧
    (handle_no_results req.query (triage_query req.query o.triage)).sources = [] ∧
    (handle_no_results req.query (triage_query req.query o.triage)).warning =
      some "No relevant context found" ∧
    (∀ g, process { o with generate := g } req = process o req) := by
  intro o req h
  refine ⟨process_of_search_empty o req h, rfl, rfl, rfl, ?_⟩
  intro g
  exact (process_of_search_empty { o with generate := g } req h).trans
    (process_of_search_empty o req h).symm

/-- C2 witness: collaborators for which every retrieval strategy
contributes nothing. -/
theorem C2_no_results_witness :
    process noResultsOracles noResultsReq =
      Except.ok (handle_no_results noResultsReq.query
        (triage_query noResultsReq.query noResultsOracles.triage)) :=
  (C2_no_results noResultsOracles noResultsReq rfl).1

/-- C3: for every non-empty fused result list, `_calculate_confidence`
equals the spec's formula — with `avg_score` the mean of the scores of the
first `min(5, length)` results, `min(0.3, avg_score)` when the answer
contains an insufficiency marker (case-insensitive substring), otherwise
`min((avg_score + analysis.confidence) / 2, 1)` — and on the scenario of
one vector hit with weighted score 0.82, analysis confidence 0.9 and a
marker-free answer, `process` returns confidence (0.82 + 0.9)/2 = 0.86 =
43/50 with no warning. -/
theorem C3_confidence :
    (∀ (answer : String) (results : List SearchResult) (ac : ℚ),
      results ≠ [] →
      calculate_confidence answer results ac =
        (if pyInStr "don't have enough" (pyLower answer) = true ∨
            pyInStr "insufficient" (pyLower answer) = true ∨
            pyInStr "cannot answer" (pyLower answer) = true ∨
            pyInStr "unclear" (pyLower answer) = true then
          min (3/10)
            (((results.take 5).map (fun r => r.score)).sum /
              ((min results.length 5 : ℕ) : ℚ))
        else
          min ((((results.take 5).map (fun r => r.score)).sum /
              ((min results.length 5 : ℕ) : ℚ) + ac) / 2) 1)) ∧
    process scenarioOracles scenarioReq = Except.ok scenarioAnswer ∧
    scenarioAnswer.confidence = 43/50 ∧
    scenarioAnswer.warning = none := by
  refine ⟨?_, scenario_process_eval, rfl, rfl⟩
  intro answer results ac hne
  have hie : results.isEmpty = false := by
    cases results with
    | nil => exact absurd rfl hne
    | cons a as => rfl
  simp only [calculate_confidence, hie, Bool.false_eq_true, if_false,
    insufficientIndicators, List.any_cons, List.any_nil, Bool.or_eq_true,
    Bool.or_false]

/-- C3 witness: the confidence formula instantiated at a concrete
marker-free answer over one graph result. -/
theorem C3_confidence_witness :
    calculate_confidence "ok answer" [gRes] (1/2) =
      (if pyInStr "don't have enough" (pyLower "ok answer") = true ∨
          pyInStr "insufficient" (pyLower "ok answer") = true ∨
          pyInStr "cannot answer" (pyLower "ok answer") = true ∨
          pyInStr "unclear" (pyLower "ok answer") = true then
        min (3/10)
          ((([gRes].take 5).map (fun r => r.score)).sum /
            ((min ([gRes] : List SearchResult).length 5 : ℕ) : ℚ))
      else
        min (((([gRes].take 5).map (fun r => r.score)).sum /
            ((min ([gRes] : List SearchResult).length 5 : ℕ) : ℚ) + 1/2) / 2) 1) :=
  C3_confidence.1 "ok answer" [gRes] (1/2) (by simp)

/-- C4: every Answer `process` returns — for any collaborator behaviour —
has confidence in [0,1]; at most 5 citations and no more citations than
retrieved contexts (one per retrieved result); a warning exactly when
confidence < 0.5 or the answer text contains the sentinel
`I don't have enough information`; and empty sources only with confidence
exactly 0. -/
theorem C4_invariants :
    ∀ (o : Oracles) (req : QueryRequest) (ans : Answer),
    process o req = Except.ok ans →
    (0 ≤ ans.confidence ∧ ans.confidence ≤ 1) ∧
    ans.sources.length ≤ 5 ∧
    ans.sources.length ≤ ans.retrieved_contexts.length ∧
    (ans.warning.isSome = true ↔
      (ans.confidence < 1/2 ∨ pyInStr insufficientSentinel ans.answer = true)) ∧
    (ans.sources = [] → ans.confidence = 0) := by
  intro o req ans h
  simp only [process] at h
  cases hs : search o (triage_query req.query o.triage).rewritten_query
      (triage_query req.query o.triage).query_type 10
      (triage_query req.query o.triage).requires_graph
      (triage_query req.query o.triage).requires_keyword
      (triage_query req.query o.triage).requires_vector with
  | error e =>
    rw [hs, except_error_bind] at h
    exact absurd h (by simp)
  | ok sr =>
    rw [hs, except_ok_bind] at h
    cases sr with
    | nil =>
      simp only [List.isEmpty_nil, if_true, Except.ok.injEq] at h
      subst h
      refine ⟨⟨le_refl 0, by norm_num [handle_no_results]⟩,
        by simp [handle_no_results], by simp [handle_no_results],
        iff_of_true rfl (Or.inl (by norm_num [handle_no_results])),
        fun _ => rfl⟩
    | cons r rs =>
      simp only [List.isEmpty_cons, Bool.false_eq_true, if_false] at h
      cases hp : post_process_answer req.query (generate_answer o.generate) (r :: rs)
          (triage_query req.query o.triage) with
      | error e =>
        rw [hp, except_error_bind] at h
        exact absurd h (by simp)
      | ok a0 =>
        rw [hp, except_ok_bind] at h
        obtain ⟨hb, hl5, hlr, hw, ha, hne⟩ :=
          post_process_invariants _ _ _ _ _ hp
        have hsrc : a0.sources ≠ [] := hne (by simp)
        have hfields : ans.confidence = a0.confidence ∧ ans.sources = a0.sources ∧
            ans.retrieved_contexts = a0.retrieved_contexts ∧
            ans.warning = a0.warning ∧ ans.answer = a0.answer := by
          split_ifs at h <;> simp only [Except.ok.injEq] at h <;> subst h <;>
            exact ⟨rfl, rfl, rfl, rfl, rfl⟩
        obtain ⟨f1, f2, f3, f4, f5⟩ := hfields
        rw [f1, f2, f3, f4, f5]
        refine ⟨hb, hl5, hlr, ?_, fun hemp => absurd hemp hsrc⟩
        rw [ha]
        exact hw

/-- C4 witness: the invariants hold of the scenario's concrete Answer. -/
theorem C4_invariants_witness :
    (0 ≤ scenarioAnswer.confidence ∧ scenarioAnswer.confidence ≤ 1) ∧
    scenarioAnswer.sources.length ≤ 5 ∧
    scenarioAnswer.sources.length ≤ scenarioAnswer.retrieved_contexts.length ∧
    (scenarioAnswer.warning.isSome = true ↔
      (scenarioAnswer.confidence < 1/2 ∨
        pyInStr insufficientSentinel scenarioAnswer.answer = true)) ∧
    (scenarioAnswer.sources = [] → scenarioAnswer.confidence = 0) :=
  C4_invariants scenarioOracles scenarioReq scenarioAnswer scenario_process_eval

/-- C5: fusion multiplies each score by its source weight (vector 1.0,
graph 0.9, keyword 0.8, anything else 0.7); sorts descending by weighted
score stably (tagging results with their input positions, the sorted
sequence is ordered by score descending with ties in input order);
deduplicates by the lowercase 100-character content key keeping the first
(highest-ranked) occurrence — the output is a subsequence of the sorted
list, its keys are distinct, every key survives, and each kept element is
the first of its key in the sorted list; `search` then truncates the
ranked list to `top_k`; and two results with equal raw score from sources
`vector` and `keyword` end with the vector one strictly higher. -/
theorem C5_fusion :
    (sourceWeight "vector" = 1 ∧ sourceWeight "graph" = 9/10 ∧
      sourceWeight "keyword" = 4/5 ∧
      (∀ s, s ≠ "vector" → s ≠ "graph" → s ≠ "keyword" → sourceWeight s = 7/10)) ∧
    (∀ l : List SearchResult,
      applyWeights l =
        l.map fun r => { r with score := r.score * sourceWeight r.source }) ∧
    (∀ l : List SearchResult,
      (sortDescBy taggedScore (applyWeights l).enum).map Prod.snd =
        sortDescBy (fun r => r.score) (applyWeights l) ∧
      (sortDescBy taggedScore (applyWeights l).enum).Pairwise RLex) ∧
    (∀ l : List SearchResult,
      (rank_results l).Sublist (sortDescBy (fun r => r.score) (applyWeights l)) ∧
      ((rank_results l).map contentKey).Nodup ∧
      (∀ r ∈ sortDescBy (fun r => r.score) (applyWeights l),
        contentKey r ∈ (rank_results l).map contentKey) ∧
      (∀ r ∈ rank_results l,
        (sortDescBy (fun r => r.score) (applyWeights l)).find?
          (fun x => contentKey x == contentKey r) = some r)) ∧
    (∀ (o : Oracles) (q : String) (qt : QueryType) (k : Nat) (eg ek ev : Bool)
      (rl : List SearchResult), search o q qt k eg ek ev = Except.ok rl →
      ∃ merged, rl = (rank_results merged).take k) ∧
    ((rank_results [kwRes, vecRes]).map (fun r => (r.source, r.score)) =
      [("vector", 4/5), ("keyword", 16/25)]) := by
  refine ⟨⟨rfl, rfl, rfl, ?_⟩, fun l => rfl, ?_, ?_, ?_, ?_⟩
  · intro s h1 h2 h3
    simp [sourceWeight, h1, h2, h3]
  · intro l
    constructor
    · have := sortDescBy_map (fun r : SearchResult => r.score) Prod.snd
        (applyWeights l).enum
      rw [List.enum_map_snd] at this
      exact this
    · exact sortDescBy_stable (enumFrom_pairwise_lt 0 (applyWeights l))
  · intro l
    refine ⟨dedupByKey_sublist _ _, (dedupByKey_keys _ _).1, ?_,
      dedupByKey_first_wins _ []⟩
    intro r hr
    rcases dedupByKey_covers (sortDescBy (fun r => r.score) (applyWeights l)) [] r hr
      with hseen | hmap
    · exact absurd hseen (List.not_mem_nil _)
    · exact hmap
  · intro o q qt k eg ek ev rl h
    simp only [search] at h
    generalize (if ev = true then vector_search_sync o.vdb_search q k else []) =
      r3 at h
    split_ifs at h with hg hk
    · cases h1 : graph_search_sync o.find_entity o.find_related_entities qt
          (extract_entities q) with
      | error e =>
        rw [h1, except_error_bind] at h
        exact absurd h (by simp)
      | ok g1 =>
        rw [h1, except_ok_bind] at h
        cases h2 : keyword_search_sync o.kg_keyword_search (extract_keywords q) with
        | error e =>
          rw [h2, except_error_bind] at h
          exact absurd h (by simp)
        | ok k1 =>
          rw [h2, except_ok_bind] at h
          simp only [Except.ok.injEq] at h
          exact ⟨_, h.symm⟩
    · cases h1 : graph_search_sync o.find_entity o.find_related_entities qt
          (extract_entities q) with
      | error e =>
        rw [h1, except_error_bind] at h
        exact absurd h (by simp)
      | ok g1 =>
        rw [h1, except_ok_bind, except_ok_bind] at h
        simp only [Except.ok.injEq] at h
        exact ⟨_, h.symm⟩
    · rw [except_ok_bind] at h
      cases h2 : keyword_search_sync o.kg_keyword_search (extract_keywords q) with
      | error e =>
        rw [h2, except_error_bind] at h
        exact absurd h (by simp)
      | ok k1 =>
        rw [h2, except_ok_bind] at h
        simp only [Except.ok.injEq] at h
        exact ⟨_, h.symm⟩
    · rw [except_ok_bind, except_ok_bind] at h
      simp only [Except.ok.injEq] at h
      exact ⟨_, h.symm⟩
  · have h1 : applyWeights [kwRes, vecRes] =
        [{ content := "kw doc", source := "keyword", score := (4/5) * (4/5)
           metadata := [] },
         { content := "vec doc", source := "vector", score := 4/5
           metadata := [] }] := by
      simp [applyWeights, kwRes, vecRes, sourceWeight]
    have h2 : sortDescBy (fun r => r.score)
        [({ content := "kw doc", source := "keyword", score := (4/5) * (4/5)
            metadata := [] } : SearchResult),
         { content := "vec doc", source := "vector", score := 4/5
           metadata := [] }] =
        [{ content := "vec doc", source := "vector", score := 4/5
           metadata := [] },
         { content := "kw doc", source := "keyword", score := (4/5) * (4/5)
           metadata := [] }] := by
      simp only [sortDescBy, insertDescBy]
      rw [if_neg (by norm_num)]
    have hne : contentKey
        ({ content := "kw doc", source := "keyword", score := (4/5) * (4/5)
           metadata := [] } : SearchResult) ≠ contentKey
        ({ content := "vec doc", source := "vector", score := 4/5
           metadata := [] } : SearchResult) := by
      decide
    have h3 : dedupByKey
        [({ content := "vec doc", source := "vector", score := 4/5
            metadata := [] } : SearchResult),
         { content := "kw doc", source := "keyword", score := (4/5) * (4/5)
           metadata := [] }] [] =
        [{ content := "vec doc", source := "vector", score := 4/5
           metadata := [] },
         { content := "kw doc", source := "keyword", score := (4/5) * (4/5)
           metadata := [] }] := by
      simp [dedupByKey, hne]
    have hrank : rank_results [kwRes, vecRes] =
        dedupByKey (sortDescBy (fun r => r.score)
          (applyWeights [kwRes, vecRes])) [] := rfl
    rw [hrank, h1, h2, h3]
    norm_num

/-- C5 witness: the defensive default weight at a concrete unknown source. -/
theorem C5_fusion_witness : sourceWeight "modality" = 7/10 :=
  C5_fusion.1.2.2.2 "modality" (by decide) (by decide) (by decide)

/-- C10: the source-weighted scores are what later surfaces: every element
of `_rank_results`'s output carries `raw score × source weight` for some
input result (the in-place `result.score *= weight` is modeled by the
returned results), and `_post_process_answer` copies exactly those scores
into the Answer's citations and passes the same result list (hence the
same weighted scores) into `_calculate_confidence`. -/
theorem C10_weighted_scores :
    (∀ (l : List SearchResult) (r : SearchResult), r ∈ rank_results l →
      ∃ r0 ∈ l, r.content = r0.content ∧ r.source = r0.source ∧
        r.score = r0.score * sourceWeight r0.source) ∧
    (∀ (q atext : String) (results : List SearchResult) (analysis : QueryAnalysis)
      (ans : Answer), post_process_answer q atext results analysis = Except.ok ans →
      ans.sources.map (fun c => c.score) = (results.take 5).map (fun r => r.score) ∧
      ans.confidence = calculate_confidence atext results analysis.confidence) := by
  constructor
  · intro l r hr
    have h1 : r ∈ sortDescBy (fun r => r.score) (applyWeights l) :=
      (dedupByKey_sublist _ _).subset hr
    have h2 : r ∈ applyWeights l :=
      (sortDescBy_perm (fun r => r.score) (applyWeights l)).subset h1
    rcases List.mem_map.mp h2 with ⟨r0, hr0, heq⟩
    exact ⟨r0, hr0, by rw [← heq], by rw [← heq], by rw [← heq]⟩
  · intro q atext results analysis ans hp
    simp only [post_process_answer, mkAnswer] at hp
    split_ifs at hp with hc
    all_goals
      simp only [Except.ok.injEq] at hp
    all_goals subst hp
    all_goals {
      refine ⟨?_, rfl⟩
      simp only [List.map_map]
      have hsnd : ∀ L : List SearchResult,
          L.enum.map (fun p => p.2.score) = L.map (fun r => r.score) := by
        intro L
        calc L.enum.map (fun p => p.2.score)
            = (L.enum.map Prod.snd).map (fun r => r.score) := by
              rw [List.map_map]; rfl
          _ = L.map (fun r => r.score) := by rw [List.enum_map_snd]
      exact hsnd (results.take 5)
    }

/-- C10 witness: the weighted score surfacing from a concrete ranked
graph result. -/
theorem C10_weighted_scores_witness :
    ∃ r0 ∈ [gRes],
      ({ content := "g", source := "graph", score := 9/10, metadata := [] } :
        SearchResult).content = r0.content ∧
      ({ content := "g", source := "graph", score := 9/10, metadata := [] } :
        SearchResult).source = r0.source ∧
      ({ content := "g", source := "graph", score := 9/10, metadata := [] } :
        SearchResult).score = r0.score * sourceWeight r0.source :=
  C10_weighted_scores.1 [gRes] _ (by rw [rank_gRes]; exact List.mem_singleton_self _)

end RAG
